import Mathlib

/-!
Shallow embedding of the `Sound` component
(`src/src/components/Sound/index.tsx` of `react-hifi`).

Numbers are modelled as exact rationals (`ℚ`).  JavaScript objects whose
iteration order matters (the `equalizer` prop) are modelled as ordered
association lists `List (ℚ × ℚ)` of (centerFrequency, gain) pairs, in
iteration order.  Optional props are `Option`s; JS truthiness of a number
(`if (position)`) is `some p` with `p ≠ 0`.
-/

namespace Sound

/-- The `type` field of a `BiquadFilterNode`, restricted to the kinds the
component uses. -/
inductive FilterKind
  | lowshelf
  | highshelf
  | peaking
  deriving DecidableEq, Repr

/-- Model of a `BiquadFilterNode` as the component configures it: `type`,
`frequency.value`, `gain.value`, `Q.value`.  A freshly created node has the
Web Audio default `Q = 1`; the component only writes `Q` on interior
(peaking) stages. -/
structure BiquadFilter where
  kind : FilterKind
  frequency : ℚ
  gain : ℚ
  q : ℚ
  deriving DecidableEq, Repr

instance : Inhabited BiquadFilter := ⟨⟨FilterKind.peaking, 0, 0, 1⟩⟩

/-- The array `this.qValues` as computed in `createFilterNodes`:
`Object.keys(equalizer).map((freq, i, arr) => !i || i === arr.length - 1 ?
null : 2 * freq / Math.abs(arr[i+1] - arr[i-1]))`. -/
def qValues (freqs : List ℚ) : List (Option ℚ) :=
  (List.range freqs.length).map fun i =>
    if i = 0 ∨ i = freqs.length - 1 then none
    else some (2 * freqs.getD i 0 / |freqs.getD (i + 1) 0 - freqs.getD (i - 1) 0|)

/-- The biquad filter the `forEach` body of `createFilterNodes` builds for
index `i`: type starts as `peaking`, gain is `equalizer[freq] + preAmp`;
for the first/last index the type is overwritten
(`i ? highshelf : lowshelf`), otherwise `Q.value` is set from
`this.qValues[i]`. -/
def filterAt (eq : List (ℚ × ℚ)) (preAmp : ℚ) (i : ℕ) : BiquadFilter :=
  let f := (eq.map Prod.fst).getD i 0
  let g := (eq.map Prod.snd).getD i 0
  if i = 0 ∨ i = eq.length - 1 then
    { kind := if i ≠ 0 then FilterKind.highshelf else FilterKind.lowshelf
      frequency := f
      gain := g + preAmp
      q := 1 }
  else
    { kind := FilterKind.peaking
      frequency := f
      gain := g + preAmp
      q := ((qValues (eq.map Prod.fst)).getD i none).getD 0 }

/-- The ordered list of filter stages `createFilterNodes` pushes onto
`this.filters`, one per equalizer entry, in iteration order. -/
def createFilterNodes (eq : List (ℚ × ℚ)) (preAmp : ℚ) : List BiquadFilter :=
  (List.range eq.length).map (filterAt eq preAmp)

/-! ## Spectrum aggregation (`formatDataVizByFrequency`)

The loop `for (i = 0; i <= last + HERTZ_ITER; i += HERTZ_ITER)` visits the
checkpoints `i = k · HERTZ_ITER` for `k = 0, 1, …`; under exact rational
arithmetic the number of iterations is `⌊(last + step)/step⌋ + 1` (and `0`
for an empty frequency list, where `frequencies[-1]` is `undefined` and the
`NaN` bound stops the loop immediately).  The raw sample array is modelled
as a total function `ℕ → ℕ` (a `Uint8Array` read out of range would give
`undefined`; no claim depends on that). -/

def HERTZ_ITER : ℚ := 117 / 5

/-- JS `Math.round` on rationals: half-up rounding, which agrees with
JS on the non-negative values this code produces. -/
def roundQ (q : ℚ) : ℤ := ⌊q + 1 / 2⌋

/-- One iteration of the checkpoint loop at `i = k · HERTZ_ITER`, acting on
the state `(currentIndex, values)`: when `i` lies strictly inside
`(freq, freq + HERTZ_ITER)` for the current band, advance the cursor and
push `data[Math.round(i / HERTZ_ITER)]`.  When `currentIndex` is past the
end, `frequencies[currentIndex]` is `undefined` and both `NaN` comparisons
are false, so the state is unchanged. -/
def vizStep (freqs : List ℚ) (data : ℕ → ℕ) (st : ℕ × List ℕ) (k : ℕ) :
    ℕ × List ℕ :=
  match freqs[st.1]? with
  | some f =>
      if f < (k : ℚ) * HERTZ_ITER ∧ (k : ℚ) * HERTZ_ITER < f + HERTZ_ITER then
        (st.1 + 1, st.2 ++ [data (roundQ ((k : ℚ) * HERTZ_ITER / HERTZ_ITER)).toNat])
      else st
  | none => st

/-- Number of loop iterations: all `k` with `k · step ≤ last + step`. -/
def numCheckpoints (freqs : List ℚ) : ℕ :=
  match freqs.getLast? with
  | none => 0
  | some last => (⌊(last + HERTZ_ITER) / HERTZ_ITER⌋ + 1).toNat

/-- The function `formatDataVizByFrequency`, for a present equalizer prop. -/
def formatDataVizByFrequency (eq : List (ℚ × ℚ)) (data : ℕ → ℕ) : List ℕ :=
  (((List.range (numCheckpoints (eq.map Prod.fst))).foldl
    (vizStep (eq.map Prod.fst) data) (0, []))).2

/-! ## Props, update actions and the gain patch (`componentDidUpdate`)

Model of the props of the component: optional numeric props are
`Option ℚ` (JS `undefined` is `none`), callback props are modelled only by
their presence (`Bool`), and the equalizer is the ordered entry list.
`componentDidUpdate` is modelled as the ordered list of externally visible
actions it performs. -/

structure ISoundProps where
  url : String := ""
  playStatus : Option String := none
  position : Option ℚ := none
  volume : Option ℚ := none
  onPlaying : Bool := false
  onVisualizationChange : Bool := false
  equalizer : Option (List (ℚ × ℚ)) := none
  preAmp : Option ℚ := none
  stereoPan : Option ℚ := none
  deriving DecidableEq, Repr

/-- The externally visible effects of the reconciler: commands to the
`<audio>` transport, writes to graph-node parameters, and starting or
cancelling the visualization animation-frame loop. -/
inductive Action
  | pauseCmd
  | playCmd
  | setTime (t : ℚ)
  | setVol (v : ℚ)
  | setPan (p : ℚ)
  | startViz
  | stopViz
  | patchGain (idx : ℕ) (g : ℚ)
  deriving DecidableEq, Repr

/-- The `(index, gain)` writes performed by
`Object.values(equalizer).forEach((value, idx) =>
this.filters[idx].gain.value = value + preAmp)`, starting at index `i`. -/
def gainPatchWritesFrom : ℕ → List (ℚ × ℚ) → ℚ → List (ℕ × ℚ)
  | _, [], _ => []
  | i, e :: es, preAmp => (i, e.2 + preAmp) :: gainPatchWritesFrom (i + 1) es preAmp

def gainPatchWrites (eq : List (ℚ × ℚ)) (preAmp : ℚ) : List (ℕ × ℚ) :=
  gainPatchWritesFrom 0 eq preAmp

/-- The filter indices the patch loop reads (`this.filters[idx]`). -/
def patchAccessedIndices (eq : List (ℚ × ℚ)) (preAmp : ℚ) : List ℕ :=
  (gainPatchWrites eq preAmp).map Prod.fst

/-- In-place mutation `this.filters[i].gain.value = g` on the modelled
filter list (out-of-range index: the model leaves the list unchanged; the
bounds question is treated separately via `patchAccessedIndices`). -/
def setGainAt : List BiquadFilter → ℕ → ℚ → List BiquadFilter
  | [], _, _ => []
  | f :: fs, 0, g => { f with gain := g } :: fs
  | f :: fs, n + 1, g => f :: setGainAt fs n g

def applyWrites (fs : List BiquadFilter) (ws : List (ℕ × ℚ)) : List BiquadFilter :=
  ws.foldl (fun acc w => setGainAt acc w.1 w.2) fs

/-- The whole gain patch loop of the equalizer branch of `componentDidUpdate`. -/
def patchFilters (fs : List BiquadFilter) (eq : List (ℚ × ℚ)) (preAmp : ℚ) :
    List BiquadFilter :=
  applyWrites fs (gainPatchWrites eq preAmp)

/-! ### The individual update rules of `componentDidUpdate` -/

/-- Source `shouldUpdatePosition`: `if (position)` (JS truthiness: absent or `0`
is falsy) `return position < prevPosition || dif > 1`, with
`prevPosition = 0` as destructuring default. -/
def shouldUpdatePosition (prev cur : ISoundProps) : Bool :=
  match cur.position with
  | some p =>
      if p = 0 then false
      else decide (p < prev.position.getD 0 ∨ p - prev.position.getD 0 > 1)
  | none => false

/-- Source `setPosition`: `if (this.props.position) this.audio.currentTime = position`. -/
def setPositionActions (cur : ISoundProps) : List Action :=
  match cur.position with
  | some p => if p = 0 then [] else [Action.setTime p]
  | none => []

/-- The seek branch of `componentDidUpdate`:
`if (this.shouldUpdatePosition(prevProps)) this.setPosition()`. -/
def positionUpdateActions (prev cur : ISoundProps) : List Action :=
  if shouldUpdatePosition prev cur then setPositionActions cur else []

/-- Source `play()`: `audio.play()` and, on resolution, start the visualization
loop when both `onVisualizationChange` and `equalizer` are truthy. -/
def playActions (p : ISoundProps) : List Action :=
  Action.playCmd ::
    (if p.onVisualizationChange ∧ p.equalizer.isSome then [Action.startViz] else [])

/-- Source `pause()`: `audio.pause()` and, when an animation frame is pending,
`cancelAnimationFrame`. -/
def pauseActions (animActive : Bool) : List Action :=
  Action.pauseCmd :: (if animActive then [Action.stopViz] else [])

/-- Source `stop()`: `this.pause(); this.audio.currentTime = 0`. -/
def stopActions (animActive : Bool) : List Action :=
  pauseActions animActive ++ [Action.setTime 0]

/-- Source `setPlayerState()`: the `switch` on `this.props.playStatus` (cases
compared by strict equality), whose `default` branch — any unrecognized or
absent status, and `"PLAYING"`, which falls through to it — plays. -/
def setPlayerState (p : ISoundProps) (animActive : Bool) : List Action :=
  if p.playStatus = some "PAUSED" then pauseActions animActive
  else if p.playStatus = some "STOPPED" then stopActions animActive
  else playActions p

def playStatusActions (prev cur : ISoundProps) (animActive : Bool) : List Action :=
  if cur.playStatus ≠ prev.playStatus then setPlayerState cur animActive else []

def volumeActions (prev cur : ISoundProps) : List Action :=
  if cur.volume ≠ prev.volume then [Action.setVol (cur.volume.getD 100 / 100)] else []

/-- The comparison `stereoPan !== prevProps.stereoPan`, where `stereoPan`
is the *destructured* current prop with default `0` (a number) and
`prevProps.stereoPan` is raw (possibly `undefined`); a number is never
strictly equal to `undefined`. -/
def stereoPanChanged (prev cur : ISoundProps) : Bool :=
  match prev.stereoPan with
  | some s => decide (cur.stereoPan.getD 0 ≠ s)
  | none => true

/-- Source `setStereoPan()` writes `this.props.stereoPan || 0`. -/
def panActions (prev cur : ISoundProps) : List Action :=
  if stereoPanChanged prev cur then [Action.setPan (cur.stereoPan.getD 0)] else []

def vizStartActions (prev cur : ISoundProps) : List Action :=
  if ¬prev.onVisualizationChange ∧ cur.onVisualizationChange ∧ cur.equalizer.isSome
  then [Action.startViz] else []

def vizStopActions (prev cur : ISoundProps) : List Action :=
  if prev.onVisualizationChange ∧ ¬cur.onVisualizationChange
  then [Action.stopViz] else []

/-- Source `shouldUpdateEqualizer`: both equalizers present and their
(order-sensitive) serialized entry lists differ, or `preAmp` changed
(strict inequality on the raw props). -/
def shouldUpdateEqualizer (prev cur : ISoundProps) : Bool :=
  (cur.equalizer.isSome && prev.equalizer.isSome &&
    !(decide (cur.equalizer = prev.equalizer))) ||
  decide (cur.preAmp ≠ prev.preAmp)

/-- The equalizer branch of `componentDidUpdate`, as the `patchGain` write
sequence over the values of the *new* equalizer (destructuring defaults
`equalizer = {}`, `preAmp = 0`). -/
def eqPatchActions (prev cur : ISoundProps) : List Action :=
  if shouldUpdateEqualizer prev cur then
    (gainPatchWrites (cur.equalizer.getD []) (cur.preAmp.getD 0)).map
      (fun w => Action.patchGain w.1 w.2)
  else []

/-- Source `componentDidUpdate(prevProps)`: the ordered list of externally visible
actions, one guarded block after the other, exactly as in the source. -/
def componentDidUpdate (prev cur : ISoundProps) (animActive : Bool) : List Action :=
  volumeActions prev cur ++
  positionUpdateActions prev cur ++
  playStatusActions prev cur animActive ++
  panActions prev cur ++
  vizStartActions prev cur ++
  vizStopActions prev cur ++
  eqPatchActions prev cur

/-- The effect of one `componentDidUpdate` on the stored filter list
`this.filters`: the equalizer branch patches gains in place; nothing else
ever touches the filters, and no code path after mount re-creates them. -/
def updateFilters (prev cur : ISoundProps) (fs : List BiquadFilter) :
    List BiquadFilter :=
  if shouldUpdateEqualizer prev cur then
    patchFilters fs (cur.equalizer.getD []) (cur.preAmp.getD 0)
  else fs

/-- Transport commands proper, as opposed to visualization-loop control. -/
def isTransport : Action → Bool
  | Action.pauseCmd => true
  | Action.playCmd => true
  | Action.setTime _ => true
  | _ => false

/-! ## Theorems -/

theorem createFilterNodes_length (eq : List (ℚ × ℚ)) (preAmp : ℚ) :
    (createFilterNodes eq preAmp).length = eq.length := by
  simp [createFilterNodes]

theorem createFilterNodes_getD (eq : List (ℚ × ℚ)) (preAmp : ℚ) (i : ℕ)
    (h : i < eq.length) :
    (createFilterNodes eq preAmp).getD i default = filterAt eq preAmp i := by
  simp [createFilterNodes, List.getD_eq_getElem?_getD, List.getElem?_map,
    List.getElem?_range, h]

theorem qValues_getD_of_interior (freqs : List ℚ) (i : ℕ) (h0 : 0 < i)
    (h1 : i + 1 < freqs.length) :
    (qValues freqs).getD i none =
      some (2 * freqs.getD i 0 / |freqs.getD (i + 1) 0 - freqs.getD (i - 1) 0|) := by
  have hi : i < freqs.length := Nat.lt_of_succ_lt h1
  have hne : ¬(i = 0 ∨ i = freqs.length - 1) := by omega
  simp [qValues, List.getD_eq_getElem?_getD, List.getElem?_map,
    List.getElem?_range, hi, hne]

theorem qValues_getD_of_edge (freqs : List ℚ) (i : ℕ) (hi : i < freqs.length)
    (h : i = 0 ∨ i = freqs.length - 1) :
    (qValues freqs).getD i none = none := by
  simp [qValues, List.getD_eq_getElem?_getD, List.getElem?_map,
    List.getElem?_range, hi, h]

/-- C1: For every non-empty equalizer of `n` entries, `createFilterNodes`
produces exactly `n` filter stages in iteration order; stage `0` is
`lowshelf`, stage `n − 1` is `highshelf` (when `n ≥ 2`), every interior
stage is `peaking`, and when `n = 1` the single stage is `lowshelf`
(index `0` takes priority over index `n − 1`) with its `Q` left at the
unused default. -/
theorem C1_filter_chain_kinds (eq : List (ℚ × ℚ)) (preAmp : ℚ) (hne : eq ≠ []) :
    (createFilterNodes eq preAmp).length = eq.length ∧
    ((createFilterNodes eq preAmp).getD 0 default).kind = FilterKind.lowshelf ∧
    (2 ≤ eq.length →
      ((createFilterNodes eq preAmp).getD (eq.length - 1) default).kind =
        FilterKind.highshelf) ∧
    (∀ i, 0 < i → i < eq.length - 1 →
      ((createFilterNodes eq preAmp).getD i default).kind = FilterKind.peaking) ∧
    (eq.length = 1 →
      ((createFilterNodes eq preAmp).getD 0 default).kind = FilterKind.lowshelf ∧
      ((createFilterNodes eq preAmp).getD 0 default).q = 1) := by
  have hpos : 0 < eq.length := List.length_pos.mpr hne
  refine ⟨createFilterNodes_length eq preAmp, ?_, ?_, ?_, ?_⟩
  · rw [createFilterNodes_getD eq preAmp 0 hpos]
    simp [filterAt]
  · intro h2
    have hlt : eq.length - 1 < eq.length := by omega
    rw [createFilterNodes_getD eq preAmp _ hlt]
    have hne0 : eq.length - 1 ≠ 0 := by omega
    simp [filterAt, hne0]
  · intro i h0 h1
    have hlt : i < eq.length := by omega
    rw [createFilterNodes_getD eq preAmp i hlt]
    have hcond : ¬(i = 0 ∨ i = eq.length - 1) := by omega
    simp [filterAt, hcond]
  · intro h1
    rw [createFilterNodes_getD eq preAmp 0 hpos]
    simp [filterAt]

/-- Witness for C1 at a concrete three-band equalizer. -/
theorem C1_filter_chain_kinds_witness :
    (createFilterNodes [(60, 1), (310, 2), (3000, 3)] 2).length = 3 ∧
    ((createFilterNodes [(60, 1), (310, 2), (3000, 3)] 2).getD 0 default).kind =
      FilterKind.lowshelf ∧
    (2 ≤ (3 : ℕ) →
      ((createFilterNodes [(60, 1), (310, 2), (3000, 3)] 2).getD 2 default).kind =
        FilterKind.highshelf) ∧
    (∀ i, 0 < i → i < 2 →
      ((createFilterNodes [(60, 1), (310, 2), (3000, 3)] 2).getD i default).kind =
        FilterKind.peaking) ∧
    ((3 : ℕ) = 1 →
      ((createFilterNodes [(60, 1), (310, 2), (3000, 3)] 2).getD 0 default).kind =
        FilterKind.lowshelf ∧
      ((createFilterNodes [(60, 1), (310, 2), (3000, 3)] 2).getD 0 default).q = 1) := by
  have h := C1_filter_chain_kinds [(60, 1), (310, 2), (3000, 3)] 2 (by decide)
  simpa using h

/-- C2: At construction, the `Q` value derived for each interior index
`i` (`0 < i < n − 1`) equals `2 · f_i / |f_{i+1} − f_{i−1}|`, the `Q`
derived for index `0` and index `n − 1` is `null` (unused), and each
`Q` parameter of each interior stage is set to exactly the derived value. -/
theorem C2_interior_q (eq : List (ℚ × ℚ)) (preAmp : ℚ) (i : ℕ)
    (h0 : 0 < i) (h1 : i + 1 < eq.length) :
    (qValues (eq.map Prod.fst)).getD i none =
      some (2 * (eq.map Prod.fst).getD i 0 /
        |(eq.map Prod.fst).getD (i + 1) 0 - (eq.map Prod.fst).getD (i - 1) 0|) ∧
    ((createFilterNodes eq preAmp).getD i default).q =
      2 * (eq.map Prod.fst).getD i 0 /
        |(eq.map Prod.fst).getD (i + 1) 0 - (eq.map Prod.fst).getD (i - 1) 0| ∧
    (qValues (eq.map Prod.fst)).getD 0 none = none ∧
    (qValues (eq.map Prod.fst)).getD (eq.length - 1) none = none := by
  have hlen : (eq.map Prod.fst).length = eq.length := by simp
  have hq := qValues_getD_of_interior (eq.map Prod.fst) i h0 (by omega)
  have hi : i < eq.length := by omega
  refine ⟨hq, ?_, ?_, ?_⟩
  · rw [createFilterNodes_getD eq preAmp i hi]
    have hcond : ¬(i = 0 ∨ i = eq.length - 1) := by omega
    simp only [filterAt, if_neg hcond, hq]
    rfl
  · exact qValues_getD_of_edge (eq.map Prod.fst) 0 (by omega) (Or.inl rfl)
  · exact qValues_getD_of_edge (eq.map Prod.fst) (eq.length - 1) (by omega)
      (Or.inr (by omega))

/-- Witness for C2: in the chain over frequencies 100, 200, 400, the interior
stage at index 1 gets `Q = 2·200/|400−100| = 4/3`. -/
theorem C2_interior_q_witness :
    (qValues [(100 : ℚ), 200, 400]).getD 1 none = some (4 / 3) ∧
    ((createFilterNodes [(100, 0), (200, 0), (400, 0)] 0).getD 1 default).q = 4 / 3 := by
  have h := C2_interior_q [(100, 0), (200, 0), (400, 0)] 0 1 (by decide) (by decide)
  refine ⟨?_, ?_⟩
  · have := h.1
    norm_num at this ⊢
    convert this using 2
  · have := h.2.1
    norm_num at this ⊢
    convert this using 1

theorem roundQ_checkpoint (k : ℕ) :
    (roundQ ((k : ℚ) * HERTZ_ITER / HERTZ_ITER)).toNat = k := by
  have h : (k : ℚ) * HERTZ_ITER / HERTZ_ITER = (k : ℚ) := by
    rw [mul_div_assoc, div_self (by norm_num [HERTZ_ITER]), mul_one]
  rw [roundQ, h]
  have : ⌊(k : ℚ) + 1 / 2⌋ = (k : ℤ) := by
    rw [Int.floor_eq_iff]
    push_cast
    constructor <;> linarith
  rw [this]
  exact Int.toNat_natCast k

theorem vizStep_fst_le (freqs : List ℚ) (data : ℕ → ℕ) (st : ℕ × List ℕ)
    (k : ℕ) : (vizStep freqs data st k).1 ≤ st.1 + 1 := by
  unfold vizStep
  rcases h : freqs[st.1]? with _ | f
  · simp
  · dsimp only
    split <;> simp

theorem vizStep_len (freqs : List ℚ) (data : ℕ → ℕ) (st : ℕ × List ℕ)
    (k : ℕ) (h : st.2.length = st.1) :
    (vizStep freqs data st k).2.length = (vizStep freqs data st k).1 := by
  unfold vizStep
  rcases hf : freqs[st.1]? with _ | f
  · simpa using h
  · dsimp only
    split <;> simp [h]

theorem vizFold_len (freqs : List ℚ) (data : ℕ → ℕ) :
    ∀ (ks : List ℕ) (st : ℕ × List ℕ), st.2.length = st.1 →
      (ks.foldl (vizStep freqs data) st).2.length =
        (ks.foldl (vizStep freqs data) st).1 := by
  intro ks
  induction ks with
  | nil => intro st h; simpa using h
  | cons k ks ih =>
      intro st h
      simp only [List.foldl_cons]
      exact ih _ (vizStep_len freqs data st k h)

theorem vizFold_stuck (freqs : List ℚ) (data : ℕ → ℕ) (b : ℕ)
    (hstuck : ∀ (vals : List ℕ) (k : ℕ), vizStep freqs data (b, vals) k = (b, vals)) :
    ∀ (ks : List ℕ) (st : ℕ × List ℕ), st.1 ≤ b →
      (ks.foldl (vizStep freqs data) st).1 ≤ b := by
  intro ks
  induction ks with
  | nil => intro st h; exact h
  | cons k ks ih =>
      intro st h
      simp only [List.foldl_cons]
      apply ih
      rcases Nat.lt_or_ge st.1 b with hlt | hge
      · have := vizStep_fst_le freqs data st k
        omega
      · have heq : st.1 = b := le_antisymm h hge
        have hst : st = (b, st.2) := by
          cases st
          simpa using heq
        rw [hst, hstuck st.2 k]

theorem vizStep_cases (freqs : List ℚ) (data : ℕ → ℕ) (st : ℕ × List ℕ)
    (k : ℕ) :
    vizStep freqs data st k = st ∨
    vizStep freqs data st k = (st.1 + 1, st.2 ++ [data k]) := by
  unfold vizStep
  rcases freqs[st.1]? with _ | f
  · left; rfl
  · dsimp only
    split
    · right
      simp [roundQ_checkpoint]
    · left; rfl

theorem vizFold_emits (freqs : List ℚ) (data : ℕ → ℕ) :
    ∀ (ks : List ℕ) (st : ℕ × List ℕ), ∃ l : List ℕ, l.Sublist ks ∧
      (ks.foldl (vizStep freqs data) st).2 = st.2 ++ l.map data := by
  intro ks
  induction ks with
  | nil => intro st; exact ⟨[], List.Sublist.refl _, by simp⟩
  | cons k ks ih =>
      intro st
      simp only [List.foldl_cons]
      rcases vizStep_cases freqs data st k with h | h
      · rw [h]
        obtain ⟨l, hl, he⟩ := ih st
        exact ⟨l, hl.cons k, he⟩
      · rw [h]
        obtain ⟨l, hl, he⟩ := ih (st.1 + 1, st.2 ++ [data k])
        refine ⟨k :: l, hl.cons₂ k, ?_⟩
        rw [he]
        simp

/-- C7: The checkpoint scan emits at most one value per configured band
(output length ≤ number of equalizer entries), and the emitted values are
the raw samples at a strictly increasing sequence of bin indices — the
checkpoints `k` (bin index `round(k·step/step) = k`) at which the cursor
advanced, so the output follows ascending checkpoint (hence ascending
configured-frequency) order. -/
theorem C7_spectrum_aggregation (eq : List (ℚ × ℚ)) (data : ℕ → ℕ) :
    (formatDataVizByFrequency eq data).length ≤ eq.length ∧
    ∃ bins : List ℕ, bins.Pairwise (· < ·) ∧
      formatDataVizByFrequency eq data = bins.map data := by
  constructor
  · have hlen := vizFold_len (eq.map Prod.fst) data
      (List.range (numCheckpoints (eq.map Prod.fst))) (0, []) (by simp)
    have hstuck : ∀ (vals : List ℕ) (k : ℕ),
        vizStep (eq.map Prod.fst) data ((eq.map Prod.fst).length, vals) k =
          ((eq.map Prod.fst).length, vals) := by
      intro vals k
      unfold vizStep
      simp
    have hb := vizFold_stuck (eq.map Prod.fst) data (eq.map Prod.fst).length
      hstuck (List.range (numCheckpoints (eq.map Prod.fst))) (0, []) (by simp)
    unfold formatDataVizByFrequency
    rw [hlen]
    simpa using hb
  · obtain ⟨l, hl, he⟩ := vizFold_emits (eq.map Prod.fst) data
      (List.range (numCheckpoints (eq.map Prod.fst))) (0, [])
    refine ⟨l, ?_, by simpa [formatDataVizByFrequency] using he⟩
    exact (List.pairwise_lt_range _).sublist hl

/-- C9: if the open window `(f_j, f_j + step)` of band `j` contains no
checkpoint `k · step`, the cursor never advances past band `j`, so the
output has no value for band `j` nor for any band after it: its length is
at most `j`. -/
theorem C9_skipped_band (eq : List (ℚ × ℚ)) (data : ℕ → ℕ) (j : ℕ)
    (hj : j < eq.length)
    (hwin : ∀ k : ℕ, ¬((eq.map Prod.fst).getD j 0 < (k : ℚ) * HERTZ_ITER ∧
      (k : ℚ) * HERTZ_ITER < (eq.map Prod.fst).getD j 0 + HERTZ_ITER)) :
    (formatDataVizByFrequency eq data).length ≤ j := by
  have hj' : j < (eq.map Prod.fst).length := by simpa using hj
  have hsome : (eq.map Prod.fst)[j]? = some ((eq.map Prod.fst).getD j 0) := by
    rw [List.getElem?_eq_getElem hj']
    rw [List.getD_eq_getElem _ _ hj']
  have hstuck : ∀ (vals : List ℕ) (k : ℕ),
      vizStep (eq.map Prod.fst) data (j, vals) k = (j, vals) := by
    intro vals k
    unfold vizStep
    rw [hsome]
    dsimp only
    rw [if_neg (hwin k)]
  have hlen := vizFold_len (eq.map Prod.fst) data
    (List.range (numCheckpoints (eq.map Prod.fst))) (0, []) (by simp)
  have hb := vizFold_stuck (eq.map Prod.fst) data j hstuck
    (List.range (numCheckpoints (eq.map Prod.fst))) (0, []) (by simp)
  unfold formatDataVizByFrequency
  rw [hlen]
  exact hb

/-- Witness for C9: band 0 sits exactly at `23.4 = HERTZ_ITER`, so its open
window `(23.4, 46.8)` contains no checkpoint `k · 23.4` and the output is
empty although two bands are configured. -/
theorem C9_skipped_band_witness :
    (formatDataVizByFrequency [(117 / 5, 0), (100, 0)] (fun k => k)).length ≤ 0 := by
  apply C9_skipped_band [(117 / 5, 0), (100, 0)] (fun k => k) 0 (by norm_num)
  intro k
  rintro ⟨h1, h2⟩
  simp only [List.map_cons, List.getD_cons_zero, HERTZ_ITER] at h1 h2
  have hk1 : (1 : ℚ) < (k : ℚ) := by linarith
  have hk2 : (k : ℚ) < 2 := by linarith
  have h1' : 1 < k := by exact_mod_cast hk1
  have h2' : k < 2 := by exact_mod_cast hk2
  omega

theorem setGainAt_getElem? (fs : List BiquadFilter) (i : ℕ) (g : ℚ) :
    ∀ j : ℕ, (setGainAt fs i g)[j]? =
      if j = i then (fs[j]?).map (fun f => { f with gain := g }) else fs[j]? := by
  induction fs generalizing i with
  | nil => intro j; simp [setGainAt]
  | cons f fs ih =>
      intro j
      cases i with
      | zero =>
          cases j with
          | zero => simp [setGainAt]
          | succ j => simp [setGainAt]
      | succ i =>
          cases j with
          | zero => simp [setGainAt]
          | succ j =>
              simp only [setGainAt, List.getElem?_cons_succ]
              rw [ih i j]
              simp [Nat.succ_inj]

theorem gainPatchWritesFrom_getElem? (eq : List (ℚ × ℚ)) (preAmp : ℚ) :
    ∀ (i j : ℕ) (fs : List BiquadFilter),
      (applyWrites fs (gainPatchWritesFrom i eq preAmp))[j]? =
        if i ≤ j ∧ j < i + eq.length then
          (fs[j]?).map (fun f => { f with gain := (eq.getD (j - i) (0, 0)).2 + preAmp })
        else fs[j]? := by
  induction eq with
  | nil =>
      intro i j fs
      simp only [gainPatchWritesFrom, applyWrites, List.foldl_nil, List.length_nil]
      rw [if_neg (by omega)]
  | cons e es ih =>
      intro i j fs
      simp only [gainPatchWritesFrom, applyWrites, List.foldl_cons, List.length_cons]
      rw [show (List.foldl (fun acc w => setGainAt acc w.1 w.2)
        (setGainAt fs i (e.2 + preAmp)) (gainPatchWritesFrom (i + 1) es preAmp)) =
        applyWrites (setGainAt fs i (e.2 + preAmp))
          (gainPatchWritesFrom (i + 1) es preAmp) from rfl]
      rw [ih (i + 1) j (setGainAt fs i (e.2 + preAmp))]
      by_cases h1 : i + 1 ≤ j ∧ j < i + 1 + es.length
      · rw [if_pos h1, if_pos (show i ≤ j ∧ j < i + (es.length + 1) by omega)]
        rw [setGainAt_getElem?]
        rw [if_neg (show ¬ j = i by omega)]
        have hsub : j - i = (j - (i + 1)) + 1 := by omega
        rw [hsub]
        simp
      · rw [if_neg h1]
        rw [setGainAt_getElem?]
        by_cases h2 : j = i
        · rw [if_pos h2, if_pos (show i ≤ j ∧ j < i + (es.length + 1) by omega)]
          have hsub : j - i = 0 := by omega
          rw [hsub]
          simp
        · rw [if_neg h2, if_neg (show ¬(i ≤ j ∧ j < i + (es.length + 1)) by omega)]

theorem patchFilters_getElem? (fs : List BiquadFilter) (eq : List (ℚ × ℚ))
    (preAmp : ℚ) (j : ℕ) :
    (patchFilters fs eq preAmp)[j]? =
      if j < eq.length then
        (fs[j]?).map (fun f => { f with gain := (eq.getD j (0, 0)).2 + preAmp })
      else fs[j]? := by
  rw [patchFilters, gainPatchWrites, gainPatchWritesFrom_getElem?]
  simp

theorem setGainAt_length (fs : List BiquadFilter) (i : ℕ) (g : ℚ) :
    (setGainAt fs i g).length = fs.length := by
  induction fs generalizing i with
  | nil => simp [setGainAt]
  | cons f fs ih =>
      cases i with
      | zero => simp [setGainAt]
      | succ i => simp [setGainAt, ih]

theorem applyWrites_length (ws : List (ℕ × ℚ)) :
    ∀ fs : List BiquadFilter, (applyWrites fs ws).length = fs.length := by
  induction ws with
  | nil => intro fs; simp [applyWrites]
  | cons w ws ih =>
      intro fs
      simp only [applyWrites, List.foldl_cons]
      rw [show (List.foldl (fun acc w => setGainAt acc w.1 w.2)
        (setGainAt fs w.1 w.2) ws) = applyWrites (setGainAt fs w.1 w.2) ws from rfl]
      rw [ih, setGainAt_length]

theorem patchFilters_length (fs : List BiquadFilter) (eq : List (ℚ × ℚ))
    (preAmp : ℚ) : (patchFilters fs eq preAmp).length = fs.length :=
  applyWrites_length _ fs

theorem patchFilters_map_of_gain_irrelevant {α : Type} (g : BiquadFilter → α)
    (hg : ∀ (f : BiquadFilter) (x : ℚ), g { f with gain := x } = g f)
    (fs : List BiquadFilter) (eq : List (ℚ × ℚ)) (preAmp : ℚ) :
    (patchFilters fs eq preAmp).map g = fs.map g := by
  apply List.ext_getElem?
  intro j
  simp only [List.getElem?_map, patchFilters_getElem?]
  split
  · cases fs[j]? <;> simp [hg]
  · rfl

/-- C3 counterexample: An update that replaces the whole frequency set
(100, 200, 300 → 1000, 2000, 3000) is detected by `shouldUpdateEqualizer`,
yet the filter list keeps the frequencies built at mount — it is *not* the
chain a rebuild from the new equalizer would produce; only gains were
patched in place. -/
theorem C3_frequency_set_counterexample :
    shouldUpdateEqualizer { equalizer := some [(100, 1), (200, 2), (300, 3)] }
      { equalizer := some [(1000, 0), (2000, 0), (3000, 0)] } = true ∧
    (updateFilters { equalizer := some [(100, 1), (200, 2), (300, 3)] }
        { equalizer := some [(1000, 0), (2000, 0), (3000, 0)] }
        (createFilterNodes [(100, 1), (200, 2), (300, 3)] 0)).map
      BiquadFilter.frequency = [100, 200, 300] ∧
    (createFilterNodes [(1000, 0), (2000, 0), (3000, 0)] 0).map
      BiquadFilter.frequency = [1000, 2000, 3000] ∧
    updateFilters { equalizer := some [(100, 1), (200, 2), (300, 3)] }
        { equalizer := some [(1000, 0), (2000, 0), (3000, 0)] }
        (createFilterNodes [(100, 1), (200, 2), (300, 3)] 0) ≠
      createFilterNodes [(1000, 0), (2000, 0), (3000, 0)] 0 := by
  decide

theorem updateFilters_preserves (prev cur : ISoundProps) (fs : List BiquadFilter) :
    (updateFilters prev cur fs).length = fs.length ∧
    (updateFilters prev cur fs).map BiquadFilter.kind = fs.map BiquadFilter.kind ∧
    (updateFilters prev cur fs).map BiquadFilter.frequency =
      fs.map BiquadFilter.frequency ∧
    (updateFilters prev cur fs).map BiquadFilter.q = fs.map BiquadFilter.q := by
  unfold updateFilters
  split
  · exact ⟨patchFilters_length _ _ _,
      patchFilters_map_of_gain_irrelevant BiquadFilter.kind (fun f x => rfl) _ _ _,
      patchFilters_map_of_gain_irrelevant BiquadFilter.frequency (fun f x => rfl) _ _ _,
      patchFilters_map_of_gain_irrelevant BiquadFilter.q (fun f x => rfl) _ _ _⟩
  · exact ⟨rfl, rfl, rfl, rfl⟩

/-- C3 amended: A configuration update never rebuilds the filter
chain, whatever the change to the frequency set: `componentDidUpdate` only
ever patches gains in place, so after any update the stage count and every
stage keeps exactly the kind, frequency and Q built at mount. -/
theorem C3_no_rebuild_ever (prev cur : ISoundProps) (fs : List BiquadFilter) :
    (updateFilters prev cur fs).length = fs.length ∧
    (updateFilters prev cur fs).map BiquadFilter.kind = fs.map BiquadFilter.kind ∧
    (updateFilters prev cur fs).map BiquadFilter.frequency =
      fs.map BiquadFilter.frequency ∧
    (updateFilters prev cur fs).map BiquadFilter.q = fs.map BiquadFilter.q :=
  updateFilters_preserves prev cur fs

/-- C4: When an update is detected as an equalizer/pre-amp value change
and the new equalizer has as many entries as the stored chain, the
gain-only patch leaves the stage count and the kind, frequency
and Q of every stage unchanged, and sets the gain of each stage, by index, to exactly
`newGain + preAmp`. -/
theorem C4_gain_patch (prev cur : ISoundProps) (fs : List BiquadFilter)
    (h1 : shouldUpdateEqualizer prev cur = true)
    (h2 : (cur.equalizer.getD []).length = fs.length) :
    (updateFilters prev cur fs).length = fs.length ∧
    (updateFilters prev cur fs).map BiquadFilter.kind = fs.map BiquadFilter.kind ∧
    (updateFilters prev cur fs).map BiquadFilter.frequency =
      fs.map BiquadFilter.frequency ∧
    (updateFilters prev cur fs).map BiquadFilter.q = fs.map BiquadFilter.q ∧
    ∀ j, j < fs.length →
      ((updateFilters prev cur fs).getD j default).gain =
        ((cur.equalizer.getD []).getD j (0, 0)).2 + cur.preAmp.getD 0 := by
  obtain ⟨hl, hk, hf, hq⟩ := updateFilters_preserves prev cur fs
  refine ⟨hl, hk, hf, hq, ?_⟩
  intro j hj
  have hupd : updateFilters prev cur fs =
      patchFilters fs (cur.equalizer.getD []) (cur.preAmp.getD 0) := by
    unfold updateFilters
    rw [if_pos h1]
  have hfs : fs[j]? = some fs[j] := List.getElem?_eq_getElem hj
  rw [hupd, List.getD_eq_getElem?_getD, patchFilters_getElem?,
    if_pos (by omega), hfs]
  simp

/-- Witness for C4: a pure value change on a two-band chain patches the two
gains to `newGain + preAmp` and touches nothing else. -/
theorem C4_gain_patch_witness :
    ((updateFilters { equalizer := some [(100, 1), (200, 2)], preAmp := some 0 }
        { equalizer := some [(100, 3), (200, 4)], preAmp := some 1 }
        (createFilterNodes [(100, 1), (200, 2)] 0)).getD 0 default).gain = 4 ∧
    ((updateFilters { equalizer := some [(100, 1), (200, 2)], preAmp := some 0 }
        { equalizer := some [(100, 3), (200, 4)], preAmp := some 1 }
        (createFilterNodes [(100, 1), (200, 2)] 0)).getD 1 default).gain = 5 := by
  have h := C4_gain_patch { equalizer := some [(100, 1), (200, 2)], preAmp := some 0 }
    { equalizer := some [(100, 3), (200, 4)], preAmp := some 1 }
    (createFilterNodes [(100, 1), (200, 2)] 0) (by decide) (by decide)
  refine ⟨?_, ?_⟩
  · have := h.2.2.2.2 0 (by decide)
    norm_num at this
    simpa using this
  · have := h.2.2.2.2 1 (by decide)
    norm_num at this
    simpa using this

/-- C5 counterexample: A rewind from position 10 to position 0 is a
position change with new < previous, so the claim requires a seek; but
the truthiness guard (`if (position)`) in `shouldUpdatePosition` treats the new
position `0` as falsy and no seek is issued. -/
theorem C5_rewind_to_zero_counterexample :
    positionUpdateActions { position := some 10 } { position := some 0 } = [] ∧
    ({ position := some 0 } : ISoundProps).position ≠
      ({ position := some 10 } : ISoundProps).position ∧
    ({ position := some 0 } : ISoundProps).position.getD 0 <
      ({ position := some 10 } : ISoundProps).position.getD 0 := by
  decide

/-- C5 amended: A seek is issued iff the new position is present and
*nonzero* (JS truthiness) and it is either a rewind (new < previous, with
absent previous read as 0) or a forward jump of more than 1 second; in
particular a forward drift of at most 1 second never triggers a seek. -/
theorem C5_seek_condition (prev cur : ISoundProps) :
    (positionUpdateActions prev cur ≠ [] ↔
      ∃ p, cur.position = some p ∧ p ≠ 0 ∧
        (p < prev.position.getD 0 ∨ 1 < p - prev.position.getD 0)) ∧
    (∀ p, cur.position = some p → 0 ≤ p - prev.position.getD 0 →
      p - prev.position.getD 0 ≤ 1 → positionUpdateActions prev cur = []) := by
  constructor
  · unfold positionUpdateActions shouldUpdatePosition setPositionActions
    rcases hcp : cur.position with _ | p
    · simp
    · by_cases hp0 : p = 0
      · simp [hp0]
      · simp only [hp0, if_false]
        by_cases hcond : p < prev.position.getD 0 ∨ 1 < p - prev.position.getD 0
        · simp only [if_pos (decide_eq_true (by exact_mod_cast hcond))]
          simp [hp0, hcond]
        · rw [if_neg ?_]
          · simp only [ne_eq, not_true_eq_false, false_iff]
            rintro ⟨p', hp', hp'0, hp'cond⟩
            obtain rfl : p = p' := by injection hp'
            exact hcond (by tauto)
          · simpa using hcond
  · intro p hp h0 h1
    unfold positionUpdateActions shouldUpdatePosition
    rw [hp]
    by_cases hp0 : p = 0
    · simp [hp0]
    · have hcond : (decide (p < prev.position.getD 0 ∨
          p - prev.position.getD 0 > 1)) = false := by
        simp only [decide_eq_false_iff_not, not_or, not_lt]
        constructor <;> linarith
      simp [hp0, hcond]

/-- Witness for C5: a forward drift from 10 to 10.5 issues no seek. -/
theorem C5_seek_condition_witness :
    positionUpdateActions { position := some 10 } { position := some (21 / 2) } = [] := by
  exact (C5_seek_condition { position := some 10 }
    { position := some (21 / 2) }).2 (21 / 2) rfl (by norm_num) (by norm_num)

/-- C6: Regardless of the current transport state (and of whether an
animation frame is pending), the play-status transition issues: for
`"PAUSED"` a pause command only; for `"STOPPED"` a pause command followed
by a seek to 0; for `"PLAYING"` or any other value a play command. -/
theorem C6_play_status_transitions (p : ISoundProps) (animActive : Bool) :
    (p.playStatus = some "PAUSED" →
      (setPlayerState p animActive).filter isTransport = [Action.pauseCmd]) ∧
    (p.playStatus = some "STOPPED" →
      (setPlayerState p animActive).filter isTransport =
        [Action.pauseCmd, Action.setTime 0]) ∧
    (p.playStatus ≠ some "PAUSED" → p.playStatus ≠ some "STOPPED" →
      (setPlayerState p animActive).filter isTransport = [Action.playCmd]) := by
  refine ⟨?_, ?_, ?_⟩
  · intro h
    simp only [setPlayerState, if_pos h, pauseActions]
    cases animActive <;> rfl
  · intro h
    have hne : p.playStatus ≠ some "PAUSED" := by
      rw [h]
      intro hc
      injection hc with hc
      exact absurd hc (by decide)
    simp only [setPlayerState, if_neg hne, if_pos h, stopActions, pauseActions]
    cases animActive <;> rfl
  · intro h1 h2
    simp only [setPlayerState, if_neg h1, if_neg h2, playActions]
    by_cases hv : p.onVisualizationChange ∧ p.equalizer.isSome
    · rw [if_pos hv]
      rfl
    · rw [if_neg hv]
      rfl

/-- Witness for C6 at status `"STOPPED"` with a pending animation frame. -/
theorem C6_play_status_transitions_witness :
    (setPlayerState { playStatus := some "STOPPED" } true).filter isTransport =
      [Action.pauseCmd, Action.setTime 0] :=
  (C6_play_status_transitions { playStatus := some "STOPPED" } true).2.1 rfl

/-- C8 counterexample: With `stereoPan` absent, re-applying the very
same configuration is *not* action-free: `componentDidUpdate` compares the
destructured current value (defaulted to `0`) against the raw previous prop
(`undefined`), `0 !== undefined` holds, and a (redundant) pan write is
issued on every update. -/
theorem C8_idempotence_counterexample :
    componentDidUpdate
      { position := some 10, volume := some 50,
        onVisualizationChange := true, equalizer := some [(100, 0)],
        preAmp := some 0, stereoPan := none }
      { position := some 10, volume := some 50,
        onVisualizationChange := true, equalizer := some [(100, 0)],
        preAmp := some 0, stereoPan := none }
      true = [Action.setPan 0] := by
  with_unfolding_all rfl

/-- C8 amended: Applying the same configuration twice in a row is
idempotent — no volume update, no seek, no transport command, no pan
update, no visualization start/stop, and no gain patch on the second
application — provided the `stereoPan` prop is present; when it is absent
the only action is the redundant `setPan 0` of the counterexample. -/
theorem C8_idempotent_when_pan_present (p : ISoundProps) (animActive : Bool)
    (h : p.stereoPan.isSome) :
    componentDidUpdate p p animActive = [] := by
  obtain ⟨s, hs⟩ := Option.isSome_iff_exists.mp h
  have hvol : volumeActions p p = [] := by simp [volumeActions]
  have hpos : positionUpdateActions p p = [] := by
    unfold positionUpdateActions shouldUpdatePosition
    rcases hcp : p.position with _ | q
    · rfl
    · by_cases hq : q = 0
      · simp [hq]
      · have hcond : (decide (q < p.position.getD 0 ∨
            q - p.position.getD 0 > 1)) = false := by
          rw [hcp]
          simp only [Option.getD_some, decide_eq_false_iff_not, not_or, not_lt]
          constructor <;> linarith
        simp [hq, hcond]
  have hps : playStatusActions p p animActive = [] := by simp [playStatusActions]
  have hpan : panActions p p = [] := by
    unfold panActions stereoPanChanged
    rw [hs]
    simp
  have hviz1 : vizStartActions p p = [] := by
    unfold vizStartActions
    rw [if_neg]
    rintro ⟨h1, h2, _⟩
    exact h1 h2
  have hviz2 : vizStopActions p p = [] := by
    unfold vizStopActions
    rw [if_neg]
    rintro ⟨h1, h2⟩
    exact h2 h1
  have heq : eqPatchActions p p = [] := by
    unfold eqPatchActions shouldUpdateEqualizer
    simp
  unfold componentDidUpdate
  rw [hvol, hpos, hps, hpan, hviz1, hviz2, heq]
  rfl

/-- Witness for C8 at a fully populated configuration. -/
theorem C8_idempotent_when_pan_present_witness :
    componentDidUpdate
      { playStatus := some "PAUSED", position := some 5, volume := some 80,
        onVisualizationChange := true, equalizer := some [(60, 1), (170, 2)],
        preAmp := some 2, stereoPan := some 0 }
      { playStatus := some "PAUSED", position := some 5, volume := some 80,
        onVisualizationChange := true, equalizer := some [(60, 1), (170, 2)],
        preAmp := some 2, stereoPan := some 0 }
      true = [] := by
  exact C8_idempotent_when_pan_present _ true rfl

theorem gainPatchWritesFrom_map_fst (eq : List (ℚ × ℚ)) (preAmp : ℚ) :
    ∀ i : ℕ, (gainPatchWritesFrom i eq preAmp).map Prod.fst =
      List.range' i eq.length := by
  induction eq with
  | nil => intro i; simp [gainPatchWritesFrom]
  | cons e es ih =>
      intro i
      simp only [gainPatchWritesFrom, List.map_cons, List.length_cons,
        List.range'_succ, ih]

/-- C10: The gain-patch loop indexes `this.filters` by position over
the entries of the new equalizer with no bounds guard: whenever the new
equalizer has at most as many entries as the chain built at construction,
every accessed index is in range; and there are updates (a new equalizer
larger than the built chain) that access an index past the end of the
filter list. -/
theorem C10_patch_indexing :
    (∀ (builtEq newEq : List (ℚ × ℚ)) (buildPre newPre : ℚ),
      newEq.length ≤ builtEq.length →
      ∀ i ∈ patchAccessedIndices newEq newPre,
        i < (createFilterNodes builtEq buildPre).length) ∧
    (∃ builtEq newEq : List (ℚ × ℚ), ∃ buildPre newPre : ℚ,
      ∃ i ∈ patchAccessedIndices newEq newPre,
        (createFilterNodes builtEq buildPre).length ≤ i) := by
  constructor
  · intro builtEq newEq buildPre newPre hle i hi
    rw [patchAccessedIndices, gainPatchWrites, gainPatchWritesFrom_map_fst] at hi
    rw [List.mem_range'] at hi
    rw [createFilterNodes_length]
    omega
  · refine ⟨[], [(100, 0)], 0, 0, 0, ?_, ?_⟩
    · decide
    · decide

/-- Witness for the universal part of C10: patching a one-band equalizer onto a
two-stage chain accesses only index 0, which is in range. -/
theorem C10_patch_indexing_witness :
    ∀ i ∈ patchAccessedIndices [(60, 1)] 0,
      i < (createFilterNodes [(60, 0), (170, 0)] 0).length := by
  exact C10_patch_indexing.1 [(60, 0), (170, 0)] [(60, 1)] 0 0 (by decide)

end Sound

